import Mathlib

/-! # Part 1 — the embedded program -/

/-!
Verification of the dependency-checker script (`app.py`).

The script is embedded shallowly: Python strings become `List Char`,
Python dicts become association lists with Python's update-in-place
semantics, the filesystem and subprocess layers become explicit state
records, and fallible Python code becomes `Except`/`Option`-valued
functions whose `except` handlers are explicit `match`es.
-/

/-- Python strings are modelled as lists of characters. -/
abbrev Str := List Char

/-- Shorthand turning a Lean string literal into the `Str` model. -/
def S (s : String) : Str := s.data

/-- The whitespace characters stripped by Python's `str.strip()`
(restricted to the ASCII whitespace set; no input in this program
carries non-ASCII whitespace). -/
def pyIsSpace (c : Char) : Bool :=
  c == ' ' || c == '\t' || c == '\n' || c == '\r' ||
    c == Char.ofNat 11 || c == Char.ofNat 12

/-- Python `s.strip()`: drop whitespace from both ends. -/
def pyStrip (s : Str) : Str :=
  ((s.dropWhile pyIsSpace).reverse.dropWhile pyIsSpace).reverse

/-- Python `s.strip(c)` for a single-character argument: drop copies of
`c` from both ends. -/
def pyStripChar (c : Char) (s : Str) : Str :=
  ((s.dropWhile (· == c)).reverse.dropWhile (· == c)).reverse

/-- Python `s.split(sep)` for a one-character separator `sep`: split on
every occurrence; adjacent separators yield empty fields; the empty
string yields `[[]]`. -/
def splitChar (sep : Char) : Str → List Str
  | [] => [[]]
  | c :: cs =>
    if sep == c then [] :: splitChar sep cs
    else
      match splitChar sep cs with
      | [] => [[c]]
      | r :: rs => (c :: r) :: rs

/-- Python `s.split(sep)` for a two-character separator `a,b`: split on
every non-overlapping occurrence, scanning left to right. -/
def split2 (a b : Char) : Str → List Str
  | [] => [[]]
  | [c] => [[c]]
  | c :: d :: cs =>
    if a == c && b == d then [] :: split2 a b cs
    else
      match split2 a b (d :: cs) with
      | [] => [[c]]
      | r :: rs => (c :: r) :: rs

/-- Python `sub in s` for a two-character `sub`: substring membership. -/
def hasPair (a b : Char) : Str → Bool
  | [] => false
  | [_] => false
  | c :: d :: cs => (a == c && b == d) || hasPair a b (d :: cs)

/-- Spec-side notion: split `s` at the FIRST occurrence of the
two-character separator `a,b`, returning the text before and after it.
This is the operation the specification describes
("split on the first occurrence of `==`"). -/
def specFirstSplit2 (a b : Char) : Str → Option (Str × Str)
  | [] => none
  | [_] => none
  | c :: d :: cs =>
    if a == c && b == d then some ([], cs)
    else (specFirstSplit2 a b (d :: cs)).map (fun p => (c :: p.1, p.2))

/-- Spec-side notion: the number of non-overlapping occurrences of the
two-character separator `a,b` in `s`, scanning left to right. -/
def countOcc2 (a b : Char) : Str → Nat
  | [] => 0
  | [_] => 0
  | c :: d :: cs =>
    if a == c && b == d then 1 + countOcc2 a b cs
    else countOcc2 a b (d :: cs)

/-- `urlparse(url).path`, `path.strip('/')`, `split('/')`, and the
index checks of `validate_github_url` (`app.py` lines 20-32).  The
composition with `urllib.parse.urlparse` is modelled by taking the
URL's path component as the input; `none` models the
`except`/`sys.exit(1)` branch. -/
def validate_github_url (path : Str) : Option (Str × Str) :=
  let path_parts := splitChar '/' (pyStripChar '/' path)
  if path_parts.length < 2 then none
  else some (path_parts.getD 0 [], path_parts.getD 1 [])

/-! ## Python dictionaries

Association lists with Python `dict` semantics: assigning to an
existing key overwrites the value in place (keeping its position),
assigning a new key appends. -/

/-- Python `d[k] = v`. -/
def dictSet {K V : Type} [DecidableEq K] (d : List (K × V)) (k : K) (v : V) :
    List (K × V) :=
  match d with
  | [] => [(k, v)]
  | (k', v') :: rest =>
    if k = k' then (k, v) :: rest else (k', v') :: dictSet rest k v

/-- Python `d.get(k)` / `k in d`: the value at the first binding of `k`. -/
def dictGet {K V : Type} [DecidableEq K] (d : List (K × V)) (k : K) :
    Option V :=
  match d with
  | [] => none
  | (k', v') :: rest => if k = k' then some v' else dictGet rest k

/-! ## Filesystem model and manager detection -/

/-- Kind of a filesystem entry.  `os.path.exists` and `Path.rglob` do
not distinguish regular files from directories, so detection must not
either; keeping the kind in the model lets that be stated. -/
inductive FKind where
  | file : FKind
  | dir : FKind
deriving DecidableEq

/-- The cloned tree: the names of the entries directly under the root
(as seen by `os.path.exists(os.path.join(temp_dir, name))`), and the
relative paths of every entry of the whole tree in the traversal order
used by `Path(temp_dir).rglob`. -/
structure FS where
  rootEntries : List (Str × FKind)
  allEntries : List (Str × FKind)
deriving DecidableEq

/-- Python `'*' in file_pattern`. -/
def strContainsChar (s : Str) (c : Char) : Bool := s.contains c

/-- `os.path.join(temp_dir, name)` (also the textual form of
`Path(temp_dir) / rel` produced by `rglob` matches). -/
def pathJoin (td : Str) (name : Str) : Str := td ++ [('/' : Char)] ++ name

/-- `os.path.exists(os.path.join(temp_dir, name))`: an entry of any kind
with that name directly under the root. -/
def rootExists (fs : FS) (name : Str) : Bool :=
  fs.rootEntries.any (fun e => e.1 == name)

/-- The final component of a slash-separated path
(`os.path.basename`, and the name a `rglob` pattern is matched
against). -/
def baseName (p : Str) : Str := (splitChar '/' p).getLastD []

/-- `fnmatch` of a name against the pattern `*.csproj`: the name ends in
`.csproj`. -/
def matchesCsproj (name : Str) : Bool := (S ".csproj").isSuffixOf name

/-- `str(m)` for every `m` in `Path(temp_dir).rglob('*.csproj')`, in
traversal order. -/
def rglobCsproj (td : Str) (fs : FS) : List Str :=
  (fs.allEntries.filter (fun e => matchesCsproj (baseName e.1))).map
    (fun e => pathJoin td e.1)

/-- The fixed marker table of `detect_package_managers`
(`app.py` lines 51-62), in source order. -/
def package_files : List (Str × Str) :=
  [(S "package.json", S "npm"),
   (S "requirements.txt", S "pip"),
   (S "Pipfile", S "pipenv"),
   (S "composer.json", S "composer"),
   (S "pom.xml", S "maven"),
   (S "build.gradle", S "gradle"),
   (S "Gemfile", S "bundler"),
   (S "go.mod", S "go"),
   (S "Cargo.toml", S "cargo"),
   (S "*.csproj", S "dotnet")]

/-- One iteration of the detection loop (`app.py` lines 66-75): glob
patterns are searched recursively and the first match is kept, literal
names are tested for existence directly under the root.  The only
pattern containing `*` is `*.csproj`, so the glob branch is modelled by
`rglobCsproj`. -/
def markerHit (td : Str) (fs : FS) (pat : Str) : Option Str :=
  if strContainsChar pat '*' then (rglobCsproj td fs).head?
  else if rootExists fs pat then some (pathJoin td pat) else none

/-- `detect_package_managers` (`app.py` lines 49-77): fold the marker
table, recording `found_managers[manager] = path` on each hit. -/
def detect_package_managers (td : Str) (fs : FS) : List (Str × Str) :=
  package_files.foldl
    (fun acc p =>
      match markerHit td fs p.1 with
      | some path => dictSet acc p.2 path
      | none => acc)
    []

/-! ## JSON values and the npm manifest parser -/

/-- Parsed JSON values (`json.load` / `json.loads` output).  Numbers
keep their literal text: no operation of this program computes with
them, they are only compared and printed. -/
inductive Json where
  | null : Json
  | bool : Bool → Json
  | num : Str → Json
  | str : Str → Json
  | arr : List Json → Json
  | obj : List (Str × Json) → Json

mutual

/-- Python `==` on parsed JSON values, modelled structurally.  (Python's
numeric cross-type equalities such as `1 == 1.0` and its
order-insensitive dict equality are not modelled; no value handled by
this program is compared that way.) -/
def jsonBeq : Json → Json → Bool
  | Json.null, Json.null => true
  | Json.bool a, Json.bool b => a == b
  | Json.num a, Json.num b => a == b
  | Json.str a, Json.str b => a == b
  | Json.arr a, Json.arr b => jsonListBeq a b
  | Json.obj a, Json.obj b => jsonFieldsBeq a b
  | _, _ => false

def jsonListBeq : List Json → List Json → Bool
  | [], [] => true
  | x :: xs, y :: ys => jsonBeq x y && jsonListBeq xs ys
  | _, _ => false

def jsonFieldsBeq : List (Str × Json) → List (Str × Json) → Bool
  | [], [] => true
  | (k1, v1) :: xs, (k2, v2) :: ys => k1 == k2 && jsonBeq v1 v2 && jsonFieldsBeq xs ys
  | _, _ => false

end

/-- `fields.get(k, default)` on a dict that came out of `json.load`
(within one parsed document an object's keys are unique, so the first
binding is the binding). -/
def jsonGetD (fields : List (Str × Json)) (k : Str) (default : Json) : Json :=
  (dictGet fields k).getD default

/-- Python `deps.update(arg)` where `deps` holds string keys: each
key/value pair of `arg` is assigned in order, later pairs overwriting
earlier bindings. -/
def pyUpdatePairs (d : List (Str × Json)) (pairs : List (Str × Json)) :
    List (Str × Json) :=
  pairs.foldl (fun acc p => dictSet acc p.1 p.2) d

/-- `dict.update` with a parsed-JSON argument: only a JSON object is a
mapping.  (Python's `update` also accepts iterables of key/value pairs;
no JSON manifest produces one and no claim depends on that case, so a
non-object argument is modelled as the `TypeError` it raises for the
values this program actually meets.) -/
def pyDictUpdate (d : List (Str × Json)) (arg : Json) :
    Except Str (List (Str × Json)) :=
  match arg with
  | Json.obj fields => Except.ok (pyUpdatePairs d fields)
  | _ => Except.error (S "TypeError: update argument is not a mapping")

/-- Python `data.get(k, {})`: raises `AttributeError` unless `data` is a
dict. -/
def pyGetDefaultObj (data : Json) (k : Str) : Except Str Json :=
  match data with
  | Json.obj fields => Except.ok (jsonGetD fields k (Json.obj []))
  | _ => Except.error (S "AttributeError: object has no attribute get")

/-- The `try` body of `parse_npm_dependencies` (`app.py` lines 81-87).
The argument models the outcome of `open` + `json.load`: `none` is an
I/O or JSON-decode failure, `some data` the parsed document. -/
def parse_npm_body (file : Option Json) : Except Str (List (Str × Json)) :=
  match file with
  | none => Except.error (S "IOError or JSONDecodeError")
  | some data =>
    match pyGetDefaultObj data (S "dependencies") with
    | Except.error e => Except.error e
    | Except.ok d1 =>
      match pyDictUpdate [] d1 with
      | Except.error e => Except.error e
      | Except.ok deps =>
        match pyGetDefaultObj data (S "devDependencies") with
        | Except.error e => Except.error e
        | Except.ok d2 =>
          match pyDictUpdate deps d2 with
          | Except.error e => Except.error e
          | Except.ok deps2 => Except.ok deps2

/-- `parse_npm_dependencies` (`app.py` lines 79-90): the `except`
handler prints the error and returns the empty dict. -/
def parse_npm_dependencies (file : Option Json) : List (Str × Json) :=
  match parse_npm_body file with
  | Except.ok deps => deps
  | Except.error _ => []

/-! ## The line-oriented requirements parser -/

/-- Python `line.startswith('#')`. -/
def startsWithHash (s : Str) : Bool :=
  match s with
  | [] => false
  | c :: _ => c == '#'

/-- The body of the `for line in f` loop of
`parse_python_requirements` (`app.py` lines 98-108) for one line: the
updated dict, or the exception the line raised —
`name, version = line.split('==')` raises `ValueError` whenever the
split does not produce exactly two values. -/
def reqStep (deps : List (Str × Str)) (line : Str) :
    Except Str (List (Str × Str)) :=
  let t := pyStrip line
  if !t.isEmpty && !startsWithHash t then
    if hasPair '=' '=' t then
      match split2 '=' '=' t with
      | [name, version] => Except.ok (dictSet deps name version)
      | _ => Except.error (S "ValueError: unpacking line.split")
    else if hasPair '>' '=' t then
      match split2 '>' '=' t with
      | [name, version] => Except.ok (dictSet deps name version)
      | _ => Except.error (S "ValueError: unpacking line.split")
    else Except.ok (dictSet deps t (S "Not specified"))
  else Except.ok deps

/-- The `for line in f` loop (`app.py` lines 97-108): the dict built so
far, together with the exception, if any, that aborted the loop. -/
def reqLoop (deps : List (Str × Str)) : List Str → List (Str × Str) × Option Str
  | [] => (deps, none)
  | line :: rest =>
    match reqStep deps line with
    | Except.ok d => reqLoop d rest
    | Except.error e => (deps, some e)

/-- `parse_python_requirements` (`app.py` lines 92-111).  The argument
models the outcome of `open`: `none` is an I/O failure (the `except`
fires with `deps` still `{}`), `some lines` the file's lines.  Whatever
happens, the function returns the dict accumulated so far. -/
def parse_python_requirements (file : Option (List Str)) : List (Str × Str) :=
  match file with
  | none => []
  | some lines => (reqLoop [] lines).1

/-! ## The report printer -/

/-- Left-justify to width `w` with spaces: Python `'{:<w}'.format`
applied to a string (pads, never truncates). -/
def ljust (w : Nat) (s : Str) : Str := s ++ List.replicate (w - s.length) ' '

/-- Rendering a parsed-JSON value through a `'{:<w}'` format spec:
strings and numbers render as their text; booleans fall back to
`int.__format__`, rendering as `1`/`0`; `None`, lists and dicts raise
`TypeError` under an alignment spec. -/
def formatVal : Json → Except Str Str
  | Json.str s => Except.ok s
  | Json.num lit => Except.ok lit
  | Json.bool b => Except.ok (if b then S "1" else S "0")
  | _ => Except.error (S "TypeError: unsupported format string")

/-- `name[:39]`: string slicing; any non-string package name makes the
row raise (`TypeError`, from the slice or from the later format). -/
def pySlice39 : Json → Except Str Str
  | Json.str s => Except.ok (s.take 39)
  | _ => Except.error (S "TypeError: name is not a string")

/-- The status column of `print_package_info` (`app.py` line 171),
specialised to string versions: plain string equality. -/
def pkgStatus (current latest : Str) : Str :=
  if current = latest then S "Up to date" else S "Update Available"

/-- The display substitution of `print_package_info` (`app.py` lines
174-175), specialised to string versions: `-` replaces the `N/A`
sentinel. -/
def dispVer (v : Str) : Str := if v = S "N/A" then S "-" else v

/-- `print_package_info` (`app.py` lines 169-184) on the parsed-JSON
values the checkers feed it.  The status is computed from the raw
values, the `N/A` substitution happens next, and the `.format` call
renders the four fields left-justified to widths 40/20/20/20 separated
by single spaces; a value the format spec rejects raises. -/
def print_package_info (name current latest : Json) : Except Str Str :=
  let status := if jsonBeq current latest then S "Up to date" else S "Update Available"
  let current_ver := if jsonBeq current (Json.str (S "N/A")) then Json.str (S "-") else current
  let latest_ver := if jsonBeq latest (Json.str (S "N/A")) then Json.str (S "-") else latest
  match pySlice39 name with
  | Except.error e => Except.error e
  | Except.ok n =>
    match formatVal current_ver with
    | Except.error e => Except.error e
    | Except.ok c =>
      match formatVal latest_ver with
      | Except.error e => Except.error e
      | Except.ok l =>
        Except.ok (ljust 40 n ++ [' '] ++ ljust 20 c ++ [' '] ++ ljust 20 l ++ [' '] ++ ljust 20 status)

/-! ## Subprocess world and the outdated checker -/

/-- The observable outcome of a `subprocess.run(..., capture_output=True)`
call that completed: whether `stdout.strip()` was empty, and the result
of `json.loads(stdout)` (an error models `json.JSONDecodeError`). -/
structure ProcOut where
  stdoutEmpty : Bool
  stdoutJson : Except Str Json

/-- A `subprocess.run` invocation either raises (for example
`FileNotFoundError` when the binary is missing — never
`CalledProcessError`, since the checker calls `run` without
`check=True`) or completes with captured output. -/
inductive ProcRes where
  | raises : Str → ProcRes
  | ok : ProcOut → ProcRes

/-- The external processes one run of the checker can invoke. -/
structure World where
  npmOutdated : ProcRes
  pipInstall : Option Str
  pipList : ProcRes
  composerOutdated : ProcRes

/-- Python `for x in v`: JSON arrays iterate their elements, dicts
iterate their keys, strings iterate their characters; other values
raise `TypeError`. -/
def pyIterate : Json → Except Str (List Json)
  | Json.arr es => Except.ok es
  | Json.obj fs => Except.ok (fs.map (fun p => Json.str p.1))
  | Json.str s => Except.ok (s.map (fun c => Json.str [c]))
  | _ => Except.error (S "TypeError: object is not iterable")

/-- Python `v[k]` for a string key: dict lookup, `KeyError` when
missing, `TypeError` on non-dicts. -/
def pySubscript (v : Json) (k : Str) : Except Str Json :=
  match v with
  | Json.obj fs =>
    match dictGet fs k with
    | some x => Except.ok x
    | none => Except.error (S "KeyError")
  | _ => Except.error (S "TypeError: value is not subscriptable")

/-- Run the loop printing one row per element; the first row that
raises aborts the loop, keeping the rows already printed
(`print` happens as the loop runs). -/
def emitRows {α : Type} (f : α → Except Str Str) : List α → List Str × Option Str
  | [] => ([], none)
  | x :: rest =>
    match f x with
    | Except.error e => ([], some e)
    | Except.ok line =>
      let r := emitRows f rest
      (line :: r.1, r.2)

/-- The npm branch of `check_outdated_packages` (`app.py` lines
120-128): parse stdout as an object keyed by package name and print a
row per entry, defaulting missing `current`/`latest` to `N/A`. -/
def npmCheck (w : World) : List Str × Option Str :=
  match w.npmOutdated with
  | ProcRes.raises e => ([], some e)
  | ProcRes.ok out =>
    if out.stdoutEmpty then ([], none)
    else
      match out.stdoutJson with
      | Except.error e => ([], some e)
      | Except.ok (Json.obj fields) =>
        emitRows
          (fun p => do
            let info := p.2
            let fi ← match info with
              | Json.obj fs => Except.ok fs
              | _ => Except.error (S "AttributeError: object has no attribute get")
            let current := jsonGetD fi (S "current") (Json.str (S "N/A"))
            let latest := jsonGetD fi (S "latest") (Json.str (S "N/A"))
            print_package_info (Json.str p.1) current latest)
          fields
      | Except.ok _ => ([], some (S "AttributeError: object has no attribute items"))

/-- The pip branch (`app.py` lines 130-141): `pip install -r` first
(exit status ignored, but the call itself can raise), then
`pip list --outdated --format=json`, a JSON array of objects with
`name`/`version`/`latest_version` keys. -/
def pipCheck (w : World) : List Str × Option Str :=
  match w.pipInstall with
  | some e => ([], some e)
  | none =>
    match w.pipList with
    | ProcRes.raises e => ([], some e)
    | ProcRes.ok out =>
      if out.stdoutEmpty then ([], none)
      else
        match out.stdoutJson with
        | Except.error e => ([], some e)
        | Except.ok j =>
          match pyIterate j with
          | Except.error e => ([], some e)
          | Except.ok elems =>
            emitRows
              (fun pkg => do
                let name ← pySubscript pkg (S "name")
                let current ← pySubscript pkg (S "version")
                let latest ← pySubscript pkg (S "latest_version")
                print_package_info name current latest)
              elems

/-- The composer branch (`app.py` lines 143-152): parse stdout, read
`installed` (default `[]`), and print a row per entry with
`name`/`version`/`latest` defaulting to the empty string. -/
def composerCheck (w : World) : List Str × Option Str :=
  match w.composerOutdated with
  | ProcRes.raises e => ([], some e)
  | ProcRes.ok out =>
    if out.stdoutEmpty then ([], none)
    else
      match out.stdoutJson with
      | Except.error e => ([], some e)
      | Except.ok data =>
        match data with
        | Json.obj fs =>
          match pyIterate (jsonGetD fs (S "installed") (Json.arr [])) with
          | Except.error e => ([], some e)
          | Except.ok elems =>
            emitRows
              (fun pkg => do
                let pfs ← match pkg with
                  | Json.obj pfs => Except.ok pfs
                  | _ => Except.error (S "AttributeError: object has no attribute get")
                let name := jsonGetD pfs (S "name") (Json.str [])
                let current := jsonGetD pfs (S "version") (Json.str [])
                let latest := jsonGetD pfs (S "latest") (Json.str [])
                print_package_info name current latest)
              elems
        | _ => ([], some (S "AttributeError: object has no attribute get"))

/-- Python `s.upper()` (ASCII). -/
def pyUpper (s : Str) : Str := s.map Char.toUpper

/-- `print(f"\n=== {manager.upper()} Dependencies ===")`. -/
def mgrHeader (mgr : Str) : Str :=
  S "\n=== " ++ pyUpper mgr ++ S " Dependencies ==="

/-- The two lines printed by `print_package_header`
(`app.py` lines 161-167). -/
def columnHeader : List Str :=
  [[('\n' : Char)] ++ ljust 40 (S "Package Name") ++ [' '] ++ ljust 20 (S "Current Version") ++
     [' '] ++ ljust 20 (S "Latest Version") ++ [' '] ++ ljust 20 (S "Status"),
   List.replicate 100 '-']

/-- `print(f"\nUnexpected error checking {manager} packages: ...")`.
(The `except subprocess.CalledProcessError` arm of the source is
unreachable: every `run` in the checker is called without `check=True`,
so only the generic `except Exception` arm ever fires.) -/
def checkErrMsg (mgr : Str) (e : Str) : Str :=
  S "\nUnexpected error checking " ++ mgr ++ S " packages: " ++ e

/-- The `try` body's dispatch (`app.py` lines 120-154): rows printed
and the exception, if one was raised, for a single manager.  Managers
without a handler are silently skipped. -/
def mgrResult (w : World) (p : Str × Str) : List Str × Option Str :=
  if p.1 = S "npm" then npmCheck w
  else if p.1 = S "pip" then pipCheck w
  else if p.1 = S "composer" then composerCheck w
  else ([], none)

/-- Everything one iteration of the manager loop prints: the section
header and column header, the rows, then the `except` arm's message if
the body raised. -/
def manager_events (w : World) (p : Str × Str) : List Str :=
  let r := mgrResult w p
  mgrHeader p.1 :: columnHeader ++ r.1 ++
    (match r.2 with
     | some e => [checkErrMsg p.1 e]
     | none => [])

/-- `check_outdated_packages` (`app.py` lines 113-159): the manager
loop, every line printed in order. -/
def check_outdated_packages (w : World) : List (Str × Str) → List Str
  | [] => []
  | p :: rest => manager_events w p ++ check_outdated_packages w rest

/-! ## The orchestrator -/

/-- Characters allowed in a URL scheme after the leading letter. -/
def isSchemeChar (c : Char) : Bool :=
  c.isAlphanum || c == '+' || c == '-' || c == '.'

/-- Modelled from Python's `urllib.parse.urlparse`, restricted to the
`.path` component this program reads: drop the fragment (after the
first `#`) and the query (after the first `?`), strip a syntactically
valid `scheme:` prefix, and if the remainder starts with `//` skip the
network location up to the next `/`.  (The `;parameters` split of the
last segment is not modelled; no input of interest contains `;`.) -/
def urlparse_path (url : Str) : Str :=
  let s1 := (splitChar '#' url).headD []
  let s2 := (splitChar '?' s1).headD []
  let pre := s2.takeWhile (fun c => !(c == ':'))
  let s3 :=
    if pre.length < s2.length && !pre.isEmpty &&
        (pre.headD ' ').isAlpha && pre.all isSchemeChar then
      s2.drop (pre.length + 1)
    else s2
  match s3 with
  | '/' :: '/' :: rest => rest.dropWhile (fun c => !(c == '/'))
  | _ => s3

/-- A `git clone` failure: `subprocess.CalledProcessError` with its
exit status and the captured standard-error text (`capture_output=True`
stores it on the exception's `stderr` attribute). -/
structure CPE where
  returncode : Nat
  stderrText : Str

/-- `repr` of a list of Python strings (none of the strings involved
here contains a quote or backslash, so `repr` is quote-wrapping). -/
def pyReprStrList (xs : List Str) : Str :=
  S "[" ++ (List.intercalate (S ", ") (xs.map (fun s => [('\x27' : Char)] ++ s ++ [('\x27' : Char)]))) ++ S "]"

/-- Decimal digits of a number, as printed by `%d`. -/
def natStr (n : Nat) : Str := Nat.toDigits 10 n

/-- The clone command line (`app.py` line 43). -/
def cloneCmd (repo_url td : Str) : List Str :=
  [S "git", S "clone", S "--depth", S "1", repo_url, td]

/-- `str(e)` for `e : subprocess.CalledProcessError` with a positive
exit status: the command's `repr` and the status — the captured
`stderr` text is *not* part of it. -/
def cpeStr (cmd : List Str) (returncode : Nat) : Str :=
  S "Command " ++ [('\x27' : Char)] ++ pyReprStrList cmd ++ [('\x27' : Char)] ++
    S " returned non-zero exit status " ++ natStr returncode ++ S "."

/-- `print(f"Error cloning repository: {e}")` (`app.py` line 46). -/
def cloneErrMsg (repo_url td : Str) (e : CPE) : Str :=
  S "Error cloning repository: " ++ cpeStr (cloneCmd repo_url td) e.returncode

/-- Everything `main` observes about the outside world in one run. -/
structure MainWorld where
  argv : List Str
  gitAvailable : Bool
  cloneFails : Option CPE
  tempDir : Str
  fs : FS
  subW : World

def usageLines : List Str :=
  [S "Usage: python check_outdated.py <GitHub-repo-url>",
   S "Example: python check_outdated.py https://github.com/username/repo"]

def gitMissingLines : List Str :=
  [S "Error: Git is not installed or not found in system PATH.",
   S "Please install Git from https://git-scm.com/downloads and ensure it is added to your system PATH."]

def urlErrLine : Str :=
  S "Error parsing GitHub URL: Invalid GitHub repository URL format"

def analyzingLine (repo_url : Str) : Str :=
  S "\n🔍 Analyzing repository: " ++ repo_url

def noDepsLine : Str :=
  S "\n⚠️ No recognized dependency files found in the repository."

def foundLine : Str :=
  S "\n📦 Found the following package managers:"

def foundEntryLine (p : Str × Str) : Str :=
  S "  - " ++ pyUpper p.1 ++ S ": " ++ baseName p.2

/-- `main` (`app.py` lines 186-217; the name `main` itself is reserved
by Lean): exit code and the printed lines,
in order.  `sys.argv[1:]` is `argv`; `validate_github_url` exits from
inside itself on failure; `clone_repo` exits on missing git or a failed
clone; an empty manager map prints the notice and exits 0
(`sys.exit` raises `SystemExit`, which the `except Exception` handler
does not catch); otherwise the found managers are listed and the
checker runs.  Every modelled exception is handled before the
orchestrator's catch-all, so the catch-all arm does not appear. -/
def mainEntry (w : MainWorld) : Nat × List Str :=
  match w.argv with
  | [repo_url] =>
    match validate_github_url (urlparse_path repo_url) with
    | none => (1, [urlErrLine])
    | some _ =>
      if !w.gitAvailable then (1, gitMissingLines)
      else
        match w.cloneFails with
        | some e => (1, [analyzingLine repo_url, cloneErrMsg repo_url w.tempDir e])
        | none =>
          let package_managers := detect_package_managers w.tempDir w.fs
          if package_managers.isEmpty then
            (0, [analyzingLine repo_url, noDepsLine])
          else
            (0, [analyzingLine repo_url, foundLine] ++
              package_managers.map foundEntryLine ++
              check_outdated_packages w.subW package_managers)
  | _ => (1, usageLines)

/-! # Part 2 — properties -/

example : validate_github_url (S "/owner/repo") = some (S "owner", S "repo") := by decide

example : validate_github_url (S "/onlyone") = none := by decide

example : validate_github_url (S "/a//b") = some (S "a", []) := by decide

example : validate_github_url (S "") = none := by decide

example : validate_github_url (S "/a/b/c/d") = some (S "a", S "b") := by decide

theorem dictGet_dictSet_self {K V : Type} [DecidableEq K]
    (d : List (K × V)) (k : K) (v : V) : dictGet (dictSet d k v) k = some v := by
  induction d with
  | nil => simp [dictSet, dictGet]
  | cons p rest ih =>
    by_cases h : k = p.1 <;> simp [dictSet, dictGet, h, ih]

theorem dictGet_dictSet_ne {K V : Type} [DecidableEq K]
    (d : List (K × V)) (k k' : K) (v : V) (h : k' ≠ k) :
    dictGet (dictSet d k v) k' = dictGet d k' := by
  induction d with
  | nil => simp [dictSet, dictGet, h]
  | cons p rest ih =>
    by_cases hk : k = p.1
    · subst hk; simp [dictSet, dictGet, h, ih]
    · by_cases hk' : k' = p.1 <;> simp [dictSet, dictGet, hk, hk', ih]

theorem dictGet_eq_none_of_not_mem {K V : Type} [DecidableEq K]
    (d : List (K × V)) (k : K) (h : k ∉ d.map Prod.fst) : dictGet d k = none := by
  induction d with
  | nil => simp [dictGet]
  | cons p rest ih =>
    simp only [List.map_cons, List.mem_cons] at h
    push_neg at h
    simp [dictGet, h.1, ih h.2]

theorem dictSet_eq_append_of_not_mem {K V : Type} [DecidableEq K]
    (d : List (K × V)) (k : K) (v : V) (h : k ∉ d.map Prod.fst) :
    dictSet d k v = d ++ [(k, v)] := by
  induction d with
  | nil => simp [dictSet]
  | cons p rest ih =>
    simp only [List.map_cons, List.mem_cons] at h
    push_neg at h
    simp [dictSet, h.1, ih h.2]

example :
    detect_package_managers (S "/t")
      ⟨[(S "package.json", FKind.file), (S "requirements.txt", FKind.file)],
       [(S "package.json", FKind.file), (S "requirements.txt", FKind.file)]⟩ =
      [(S "npm", S "/t/package.json"), (S "pip", S "/t/requirements.txt")] := by decide

theorem detect_foldl_eq (td : Str) (fs : FS) (l : List (Str × Str))
    (acc : List (Str × Str))
    (hfresh : ∀ p ∈ l, p.2 ∉ acc.map Prod.fst)
    (hnodup : (l.map Prod.snd).Nodup) :
    l.foldl
        (fun acc p =>
          match markerHit td fs p.1 with
          | some path => dictSet acc p.2 path
          | none => acc)
        acc =
      acc ++ l.filterMap (fun p => (markerHit td fs p.1).map (fun v => (p.2, v))) := by
  induction l generalizing acc with
  | nil => simp
  | cons p rest ih =>
    simp only [List.map_cons, List.nodup_cons] at hnodup
    have hfresh' : ∀ q ∈ rest, q.2 ∉ acc.map Prod.fst :=
      fun q hq => hfresh q (List.mem_cons_of_mem p hq)
    cases hm : markerHit td fs p.1 with
    | none =>
      simp only [List.foldl_cons, List.filterMap_cons, hm, Option.map_none']
      exact ih acc hfresh' hnodup.2
    | some v =>
      simp only [List.foldl_cons, List.filterMap_cons, hm, Option.map_some']
      have hfresh2 : ∀ q ∈ rest, q.2 ∉ (acc ++ [(p.2, v)]).map Prod.fst := by
        intro q hq hmem
        simp only [List.map_append, List.mem_append, List.map_cons, List.map_nil,
          List.mem_singleton] at hmem
        rcases hmem with h | h
        · exact hfresh' q hq h
        · exact hnodup.1 (h ▸ List.mem_map_of_mem Prod.snd hq)
      rw [dictSet_eq_append_of_not_mem acc p.2 v (hfresh p (List.mem_cons_self p rest)),
        ih (acc ++ [(p.2, v)]) hfresh2 hnodup.2]
      simp

theorem detect_eq_filterMap (td : Str) (fs : FS) :
    detect_package_managers td fs =
      package_files.filterMap
        (fun p => (markerHit td fs p.1).map (fun v => (p.2, v))) := by
  have h := detect_foldl_eq td fs package_files [] (by simp) (by decide)
  simpa [detect_package_managers] using h

theorem jsonBeq_str (a b : Str) : jsonBeq (Json.str a) (Json.str b) = (a == b) := by
  simp [jsonBeq]

example :
    parse_npm_dependencies
      (some (Json.obj
        [(S "dependencies", Json.obj [(S "a", Json.str (S "1.0"))]),
         (S "devDependencies", Json.obj [(S "a", Json.str (S "2.0"))])])) =
      [(S "a", Json.str (S "2.0"))] := rfl

example : parse_npm_dependencies none = [] := rfl

example : parse_npm_dependencies (some (Json.arr [])) = [] := rfl

theorem dictGet_pyUpdatePairs (d pairs : List (Str × Json)) (k : Str)
    (hnd : (pairs.map Prod.fst).Nodup) :
    dictGet (pyUpdatePairs d pairs) k = (dictGet pairs k).orElse (fun _ => dictGet d k) := by
  induction pairs generalizing d with
  | nil => simp [pyUpdatePairs, dictGet]
  | cons p rest ih =>
    simp only [List.map_cons, List.nodup_cons] at hnd
    have step : pyUpdatePairs d (p :: rest) = pyUpdatePairs (dictSet d p.1 p.2) rest := by
      simp [pyUpdatePairs]
    rw [step, ih (dictSet d p.1 p.2) hnd.2]
    by_cases hk : k = p.1
    · subst hk
      have hrest : dictGet rest p.1 = none :=
        dictGet_eq_none_of_not_mem rest p.1 hnd.1
      simp [dictGet, hrest, dictGet_dictSet_self]
    · simp [dictGet, hk, dictGet_dictSet_ne d p.1 k p.2 hk]

example :
    parse_python_requirements (some [S "requests==2.0", S "", S "# c", S "flask>=1.0", S "numpy"]) =
      [(S "requests", S "2.0"), (S "flask", S "1.0"), (S "numpy", S "Not specified")] := by decide

example : parse_python_requirements (some [S "a==b==c"]) = [] := by decide

example : parse_python_requirements (some [S "x==1", S "a==b==c", S "z==9"]) =
    [(S "x", S "1")] := by decide

/-! Relations between the source-side split (`split2`, Python's
`str.split`) and the spec-side first-occurrence split. -/

theorem split2_eq_specFirstSplit2 (a b : Char) : ∀ s : Str,
    split2 a b s =
      match specFirstSplit2 a b s with
      | none => [s]
      | some (pre, post) => pre :: split2 a b post
  | [] => by simp [split2, specFirstSplit2]
  | [c] => by simp [split2, specFirstSplit2]
  | c :: d :: cs => by
    have ih := split2_eq_specFirstSplit2 a b (d :: cs)
    by_cases hm : (a == c && b == d) = true
    · simp only [split2, specFirstSplit2, if_pos hm]
    · simp only [split2, specFirstSplit2, if_neg hm]
      cases hs : specFirstSplit2 a b (d :: cs) with
      | none =>
        rw [hs] at ih
        rw [ih]
        simp
      | some p =>
        obtain ⟨pre, post⟩ := p
        rw [hs] at ih
        rw [ih]
        simp

theorem split2_length (a b : Char) : ∀ s : Str,
    (split2 a b s).length = countOcc2 a b s + 1
  | [] => by simp [split2, countOcc2]
  | [c] => by simp [split2, countOcc2]
  | c :: d :: cs => by
    by_cases hm : (a == c && b == d) = true
    · simp only [split2, countOcc2, if_pos hm, List.length_cons,
        split2_length a b cs]
      omega
    · have ih := split2_length a b (d :: cs)
      simp only [split2, countOcc2, if_neg hm]
      cases hsp : split2 a b (d :: cs) with
      | nil => rw [hsp] at ih; simp at ih
      | cons r rs =>
        rw [hsp] at ih
        simpa using ih

theorem hasPair_eq_isSome_specFirstSplit2 (a b : Char) : ∀ s : Str,
    hasPair a b s = (specFirstSplit2 a b s).isSome
  | [] => by simp [hasPair, specFirstSplit2]
  | [c] => by simp [hasPair, specFirstSplit2]
  | c :: d :: cs => by
    by_cases hm : (a == c && b == d) = true
    · simp [hasPair, specFirstSplit2, hm]
    · have ih := hasPair_eq_isSome_specFirstSplit2 a b (d :: cs)
      simp [hasPair, specFirstSplit2, hm, ih]

theorem countOcc2_specFirstSplit2 (a b : Char) : ∀ s pre post,
    specFirstSplit2 a b s = some (pre, post) →
    countOcc2 a b s = countOcc2 a b post + 1
  | [] => by simp [specFirstSplit2]
  | [c] => by simp [specFirstSplit2]
  | c :: d :: cs => by
    intro pre post h
    by_cases hm : (a == c && b == d) = true
    · simp only [specFirstSplit2, if_pos hm, Option.some.injEq, Prod.mk.injEq] at h
      simp only [countOcc2, if_pos hm]
      rw [← h.2]
      omega
    · simp only [specFirstSplit2, if_neg hm] at h
      cases hs : specFirstSplit2 a b (d :: cs) with
      | none => rw [hs] at h; simp at h
      | some p =>
        obtain ⟨p1, p2⟩ := p
        rw [hs] at h
        simp only [Option.map_some', Option.some.injEq, Prod.mk.injEq] at h
        have ih := countOcc2_specFirstSplit2 a b (d :: cs) p1 p2 hs
        simp only [countOcc2, if_neg hm]
        rw [ih, h.2]

/-- When the separator occurs exactly once, Python's `split` yields
precisely the text before and after that first occurrence. -/
theorem split2_of_countOcc2_one (a b : Char) (s pre post : Str)
    (h : specFirstSplit2 a b s = some (pre, post))
    (hc : countOcc2 a b s = 1) :
    split2 a b s = [pre, post] := by
  have he := split2_eq_specFirstSplit2 a b s
  rw [h] at he
  simp only [] at he
  have hp : countOcc2 a b post = 0 := by
    have := countOcc2_specFirstSplit2 a b s pre post h
    omega
  have hlen : (split2 a b post).length = 1 := by
    rw [split2_length a b post, hp]
  have he2 := split2_eq_specFirstSplit2 a b post
  cases hs : specFirstSplit2 a b post with
  | none =>
    rw [hs] at he2
    simp only [] at he2
    rw [he, he2]
  | some p =>
    rw [hs] at he2
    simp only [] at he2
    rw [he2] at hlen
    have h2 := split2_length a b p.2
    simp only [List.length_cons] at hlen
    omega

/-- When the separator occurs two or more times, Python's `split`
yields at least three values, so tuple unpacking into two names
raises `ValueError`. -/
theorem split2_length_ge_three (a b : Char) (s : Str)
    (hc : 2 ≤ countOcc2 a b s) : 3 ≤ (split2 a b s).length := by
  rw [split2_length]
  omega

example :
    print_package_info (Json.str (S "lodash")) (Json.str (S "4.17.15"))
        (Json.str (S "4.17.21")) =
      Except.ok (ljust 40 (S "lodash") ++ [' '] ++ ljust 20 (S "4.17.15") ++ [' '] ++
        ljust 20 (S "4.17.21") ++ [' '] ++ ljust 20 (S "Update Available")) := rfl

theorem jsonBeq_str_iff (a b : Str) : jsonBeq (Json.str a) (Json.str b) = true ↔ a = b := by
  rw [jsonBeq_str]
  exact beq_iff_eq

example : urlparse_path (S "https://github.com/octo/proj") = S "/octo/proj" := by decide

example : urlparse_path (S "https://github.com/a//b") = S "/a//b" := by decide

example : urlparse_path (S "https://github.com/a/b?x=1#frag") = S "/a/b" := by decide

example : urlparse_path (S "github.com/a/b") = S "github.com/a/b" := by decide

/-! ## C1 — URL parsing -/

theorem dropWhile_head_false {α : Type} (p : α → Bool) :
    ∀ (l : List α) (c : α) (rest : List α), l.dropWhile p = c :: rest → p c = false := by
  intro l
  induction l with
  | nil => intro c rest h; simp [List.dropWhile] at h
  | cons x xs ih =>
    intro c rest h
    rw [List.dropWhile_cons] at h
    by_cases hx : p x = true
    · rw [if_pos hx] at h
      exact ih c rest h
    · rw [if_neg hx] at h
      injection h with h1 h2
      subst h1
      simpa using hx

theorem pyStripChar_head_ne (c : Char) (s : Str) (d : Char) (rest : Str)
    (h : pyStripChar c s = d :: rest) : (d == c) = false := by
  have hdef : pyStripChar c s = List.rdropWhile (· == c) (s.dropWhile (· == c)) := rfl
  rw [hdef] at h
  have hpre := List.rdropWhile_prefix (p := (· == c)) (l := s.dropWhile (· == c))
  rw [h] at hpre
  obtain ⟨t, ht⟩ := hpre
  exact dropWhile_head_false (· == c) s d (rest ++ t) (by rw [← ht]; simp)

theorem splitChar_head_cons (sep c : Char) (cs : Str) (h : (sep == c) = false) :
    ∃ r rs, splitChar sep (c :: cs) = (c :: r) :: rs := by
  simp only [splitChar, h, Bool.false_eq_true, if_false]
  cases hs : splitChar sep cs with
  | nil => exact ⟨[], [], rfl⟩
  | cons r rs => exact ⟨r, rs, rfl⟩

/-- C1 (amended).  For every URL path: when the `/`-stripped path
splits on `/` into at least two components, `validate_github_url`
returns the first two components of that split — the owner is always
non-empty, but the repo component is the raw second field and is empty
when the path has consecutive slashes; with fewer than two components
the parse is fatal (`sys.exit(1)`, modelled as `none`) without a clone
being attempted. -/
theorem validate_github_url_characterization (path : Str) :
    (validate_github_url path =
      if 2 ≤ (splitChar '/' (pyStripChar '/' path)).length then
        some ((splitChar '/' (pyStripChar '/' path)).getD 0 [],
          (splitChar '/' (pyStripChar '/' path)).getD 1 [])
      else none) ∧
    ∀ o r, validate_github_url path = some (o, r) → o ≠ [] := by
  constructor
  · unfold validate_github_url
    by_cases hl : (splitChar '/' (pyStripChar '/' path)).length < 2
    · rw [if_pos hl, if_neg (by omega)]
    · rw [if_neg hl, if_pos (by omega)]
  · intro o r h
    unfold validate_github_url at h
    by_cases hl : (splitChar '/' (pyStripChar '/' path)).length < 2
    · rw [if_pos hl] at h
      exact absurd h (by simp)
    · rw [if_neg hl] at h
      cases hs : pyStripChar '/' path with
      | nil =>
        rw [hs] at hl
        simp [splitChar] at hl
      | cons d ds =>
        have hd : (d == '/') = false := pyStripChar_head_ne '/' path d ds hs
        have hd' : (('/' : Char) == d) = false := by
          simp only [beq_eq_false_iff_ne] at hd ⊢
          exact fun he => hd he.symm
        obtain ⟨r', rs', hsp⟩ := splitChar_head_cons '/' d ds hd'
        rw [hs, hsp] at h
        simp only [List.getD_cons_zero, Option.some.injEq, Prod.mk.injEq] at h
        rw [← h.1]
        simp

/-- Witness for C1's amended theorem at the path `/x/y`. -/
theorem validate_github_url_characterization_witness :
    validate_github_url (S "/x/y") = some (S "x", S "y") ∧ S "x" ≠ [] :=
  ⟨by decide,
   (validate_github_url_characterization (S "/x/y")).2 (S "x") (S "y") (by decide)⟩

/-- C1 (counterexample).  The path `/a//b` has exactly two non-empty
segments, `a` and `b`, yet `validate_github_url` returns `("a", "")`:
an owner/repo pair with an empty repo component is returned, so the
parse neither returns the two non-empty segments nor rejects the
URL. -/
theorem validate_github_url_claim_counterexample :
    ((splitChar '/' (pyStripChar '/' (S "/a//b"))).filter
        (fun seg => !seg.isEmpty)).length = 2 ∧
      validate_github_url (S "/a//b") = some (S "a", []) := by decide

/-! ## C2 and C10 — manager detection -/

theorem detect_keys_eq_filter (td : Str) (fs : FS) : ∀ (l : List (Str × Str)),
    (l.filterMap (fun p => (markerHit td fs p.1).map (fun v => (p.2, v)))).map Prod.fst =
      (l.filter (fun p => (markerHit td fs p.1).isSome)).map Prod.snd := by
  intro l
  induction l with
  | nil => simp
  | cons p rest ih => cases hm : markerHit td fs p.1 <;> simp [hm, ih]

/-- C2.  Detection scans the fixed ten-entry marker table in order: the
result is exactly the table entries whose marker is present, each
manager mapped to the path of its triggering file (so the keys are
exactly the managers whose marker is present).  A literal marker is
present exactly when it exists directly under the tree root — a marker
present only in a subdirectory is not detected — while the `*.csproj`
glob is searched recursively and the first match in traversal order is
recorded.  In particular a tree containing `package.json` and
`requirements.txt` at its root yields exactly npm and pip with their
paths. -/
theorem detect_managers_characterization :
    (∀ (td : Str) (fs : FS),
      detect_package_managers td fs =
        package_files.filterMap
          (fun p => (markerHit td fs p.1).map (fun v => (p.2, v)))) ∧
    (∀ (td : Str) (fs : FS),
      (detect_package_managers td fs).map Prod.fst =
        (package_files.filter (fun p => (markerHit td fs p.1).isSome)).map Prod.snd) ∧
    detect_package_managers (S "/t")
        ⟨[(S "package.json", FKind.file), (S "requirements.txt", FKind.file)],
         [(S "package.json", FKind.file), (S "requirements.txt", FKind.file)]⟩ =
      [(S "npm", S "/t/package.json"), (S "pip", S "/t/requirements.txt")] ∧
    detect_package_managers (S "/t")
        ⟨[(S "sub", FKind.dir)], [(S "sub", FKind.dir), (S "sub/requirements.txt", FKind.file)]⟩ =
      [] ∧
    detect_package_managers (S "/t")
        ⟨[(S "a", FKind.dir), (S "b", FKind.dir)],
         [(S "a", FKind.dir), (S "a/x.csproj", FKind.file),
          (S "b", FKind.dir), (S "b/y.csproj", FKind.file)]⟩ =
      [(S "dotnet", S "/t/a/x.csproj")] :=
  ⟨detect_eq_filterMap,
   fun td fs => by rw [detect_eq_filterMap td fs]; exact detect_keys_eq_filter td fs package_files,
   by decide, by decide, by decide⟩

/-- C10.  Literal markers are tested with `os.path.exists`, which is
satisfied by a filesystem entry of any kind: an entry of the marker's
name directly under the root — a directory just as well as a regular
file — triggers detection of the corresponding manager with the
joined path recorded. -/
theorem detect_by_existence (td : Str) (fs : FS) (pat mgr : Str) (k : FKind)
    (hp : (pat, mgr) ∈ package_files)
    (hlit : strContainsChar pat '*' = false)
    (hk : (pat, k) ∈ fs.rootEntries) :
    (mgr, pathJoin td pat) ∈ detect_package_managers td fs := by
  have hM : markerHit td fs pat = some (pathJoin td pat) := by
    unfold markerHit
    rw [if_neg (by simp [hlit]), if_pos ?_]
    rw [rootExists]
    exact List.any_eq_true.mpr ⟨(pat, k), hk, by simp⟩
  rw [detect_eq_filterMap td fs]
  exact List.mem_filterMap.mpr ⟨(pat, mgr), hp, by rw [hM]; rfl⟩

/-- Witness for C10: a *directory* named `package.json` at the root of
the tree triggers npm detection. -/
theorem detect_by_existence_witness :
    (S "npm", pathJoin (S "/t") (S "package.json")) ∈
      detect_package_managers (S "/t")
        ⟨[(S "package.json", FKind.dir)], [(S "package.json", FKind.dir)]⟩ :=
  detect_by_existence (S "/t")
    ⟨[(S "package.json", FKind.dir)], [(S "package.json", FKind.dir)]⟩
    (S "package.json") (S "npm") FKind.dir (by decide) (by decide) (by decide)

/-! ## C3 — npm manifest merge -/

/-- C3.  For a JSON document that is an object whose `dependencies` and
`devDependencies` groups are objects (an absent group defaults to the
empty object), `parse_npm_dependencies` merges the two groups into one
name-to-version mapping in which, on any key collision, the
`devDependencies` value wins, because that group is read second. -/
theorem parse_npm_merge (fields df dd : List (Str × Json))
    (h1 : jsonGetD fields (S "dependencies") (Json.obj []) = Json.obj df)
    (h2 : jsonGetD fields (S "devDependencies") (Json.obj []) = Json.obj dd)
    (hdf : (df.map Prod.fst).Nodup) (hdd : (dd.map Prod.fst).Nodup) :
    ∀ k, dictGet (parse_npm_dependencies (some (Json.obj fields))) k =
      (dictGet dd k).orElse (fun _ => dictGet df k) := by
  intro k
  have hbody : parse_npm_body (some (Json.obj fields)) =
      Except.ok (pyUpdatePairs (pyUpdatePairs [] df) dd) := by
    simp only [parse_npm_body, pyGetDefaultObj, h1, h2, pyDictUpdate]
  unfold parse_npm_dependencies
  rw [hbody]
  rw [dictGet_pyUpdatePairs _ dd k hdd, dictGet_pyUpdatePairs _ df k hdf]
  cases dictGet dd k <;> cases dictGet df k <;> simp [dictGet, Option.orElse]

/-- Witness for C3 at the document
`{"dependencies":{"a":"1.0"},"devDependencies":{"a":"2.0"}}`: the
merged mapping sends `a` to `2.0`, and the whole result is exactly
`{"a":"2.0"}`. -/
theorem parse_npm_merge_witness :
    dictGet
        (parse_npm_dependencies
          (some (Json.obj
            [(S "dependencies", Json.obj [(S "a", Json.str (S "1.0"))]),
             (S "devDependencies", Json.obj [(S "a", Json.str (S "2.0"))])])))
        (S "a") = some (Json.str (S "2.0")) ∧
      parse_npm_dependencies
          (some (Json.obj
            [(S "dependencies", Json.obj [(S "a", Json.str (S "1.0"))]),
             (S "devDependencies", Json.obj [(S "a", Json.str (S "2.0"))])])) =
        [(S "a", Json.str (S "2.0"))] :=
  ⟨(parse_npm_merge
      [(S "dependencies", Json.obj [(S "a", Json.str (S "1.0"))]),
       (S "devDependencies", Json.obj [(S "a", Json.str (S "2.0"))])]
      [(S "a", Json.str (S "1.0"))] [(S "a", Json.str (S "2.0"))]
      rfl rfl (by decide) (by decide) (S "a")).trans rfl,
   rfl⟩

/-! ## C4 — the requirements-line split -/

theorem countOcc2_eq_zero_of_none (a b : Char) : ∀ t : Str,
    specFirstSplit2 a b t = none → countOcc2 a b t = 0
  | [] => by simp [countOcc2]
  | [c] => by simp [countOcc2]
  | c :: d :: cs => by
    intro h
    by_cases hm : (a == c && b == d) = true
    · simp [specFirstSplit2, hm] at h
    · simp only [specFirstSplit2, if_neg hm] at h
      simp only [countOcc2, if_neg hm]
      cases hs : specFirstSplit2 a b (d :: cs) with
      | none => exact countOcc2_eq_zero_of_none a b (d :: cs) hs
      | some p => rw [hs] at h; simp at h

theorem countOcc2_pos_of_hasPair (a b : Char) (t : Str)
    (h : hasPair a b t = true) : 1 ≤ countOcc2 a b t := by
  rw [hasPair_eq_isSome_specFirstSplit2] at h
  cases hs : specFirstSplit2 a b t with
  | none => rw [hs] at h; simp at h
  | some p =>
    have := countOcc2_specFirstSplit2 a b t p.1 p.2 (by rw [hs])
    omega

theorem countOcc2_eq_zero_of_not_hasPair (a b : Char) (t : Str)
    (h : hasPair a b t = false) : countOcc2 a b t = 0 := by
  rw [hasPair_eq_isSome_specFirstSplit2] at h
  cases hs : specFirstSplit2 a b t with
  | none => exact countOcc2_eq_zero_of_none a b t hs
  | some p => rw [hs] at h; simp at h

/-- C4 (counterexample).  On the line `a==b==c` the claim predicts the
entry `("a", "b==c")` (the split at the first `==`), but the parser
records nothing at all: `line.split('==')` yields three values, tuple
unpacking raises `ValueError`, and the whole parse aborts. -/
theorem parse_requirements_claim_counterexample :
    specFirstSplit2 '=' '=' (S "a==b==c") = some (S "a", S "b==c") ∧
      parse_python_requirements (some [S "a==b==c"]) = [] := by decide

/-- C4 (amended).  Per remaining line (after trimming; blank and `#`
lines are skipped): when the chosen operator — `==` if present, else
`>=` — occurs exactly once, the line splits at that first occurrence
into (name, version); when the chosen operator occurs more than once,
`line.split` yields more than two values, tuple unpacking raises
`ValueError`, and the parse aborts, returning the entries accumulated
so far; a line with neither operator is recorded bare with version
`"Not specified"`. -/
theorem parse_requirements_amended (deps : List (Str × Str)) (line : Str)
    (rest : List Str) :
    reqLoop deps (line :: rest) =
      if pyStrip line = [] ∨ startsWithHash (pyStrip line) = true then
        reqLoop deps rest
      else if countOcc2 '=' '=' (pyStrip line) = 1 then
        match specFirstSplit2 '=' '=' (pyStrip line) with
        | some (n, v) => reqLoop (dictSet deps n v) rest
        | none => reqLoop deps rest
      else if 2 ≤ countOcc2 '=' '=' (pyStrip line) then
        (deps, some (S "ValueError: unpacking line.split"))
      else if countOcc2 '>' '=' (pyStrip line) = 1 then
        match specFirstSplit2 '>' '=' (pyStrip line) with
        | some (n, v) => reqLoop (dictSet deps n v) rest
        | none => reqLoop deps rest
      else if 2 ≤ countOcc2 '>' '=' (pyStrip line) then
        (deps, some (S "ValueError: unpacking line.split"))
      else reqLoop (dictSet deps (pyStrip line) (S "Not specified")) rest := by
  by_cases hskip : pyStrip line = [] ∨ startsWithHash (pyStrip line) = true
  · have hcond : (!(pyStrip line).isEmpty && !startsWithHash (pyStrip line)) = false := by
      rcases hskip with h | h <;> simp [h]
    simp only [reqLoop, reqStep, hcond, Bool.false_eq_true, if_false, if_pos hskip]
  · push_neg at hskip
    have hh : startsWithHash (pyStrip line) = false := by
      cases h : startsWithHash (pyStrip line)
      · rfl
      · exact absurd h hskip.2
    have hcond : (!(pyStrip line).isEmpty && !startsWithHash (pyStrip line)) = true := by
      simp [hh, List.isEmpty_iff, hskip.1]
    rw [if_neg (by push_neg; exact ⟨hskip.1, hskip.2⟩)]
    simp only [reqLoop, reqStep, hcond, if_true]
    cases hp1 : hasPair '=' '=' (pyStrip line) with
    | true =>
      simp only [hp1, if_true]
      by_cases h1 : countOcc2 '=' '=' (pyStrip line) = 1
      · cases hs : specFirstSplit2 '=' '=' (pyStrip line) with
        | none =>
          have := countOcc2_eq_zero_of_none '=' '=' (pyStrip line) hs
          omega
        | some p =>
          obtain ⟨pre, post⟩ := p
          simp [split2_of_countOcc2_one '=' '=' (pyStrip line) pre post hs h1, h1]
      · have h2 : 2 ≤ countOcc2 '=' '=' (pyStrip line) := by
          have := countOcc2_pos_of_hasPair '=' '=' (pyStrip line) hp1
          omega
        have h3 := split2_length_ge_three '=' '=' (pyStrip line) h2
        rw [if_neg h1, if_pos h2]
        cases hsp : split2 '=' '=' (pyStrip line) with
        | nil => rfl
        | cons x xs =>
          cases xs with
          | nil => rfl
          | cons y ys =>
            cases ys with
            | nil => exfalso; rw [hsp] at h3; simp at h3
            | cons z zs => rfl
    | false =>
      have hz1 : countOcc2 '=' '=' (pyStrip line) = 0 :=
        countOcc2_eq_zero_of_not_hasPair '=' '=' (pyStrip line) hp1
      simp only [hp1, Bool.false_eq_true, if_false]
      rw [if_neg (show ¬(countOcc2 '=' '=' (pyStrip line) = 1) by omega),
        if_neg (show ¬(2 ≤ countOcc2 '=' '=' (pyStrip line)) by omega)]
      cases hp2 : hasPair '>' '=' (pyStrip line) with
      | true =>
        simp only [hp2, if_true]
        by_cases h1 : countOcc2 '>' '=' (pyStrip line) = 1
        · cases hs : specFirstSplit2 '>' '=' (pyStrip line) with
          | none =>
            have := countOcc2_eq_zero_of_none '>' '=' (pyStrip line) hs
            omega
          | some p =>
            obtain ⟨pre, post⟩ := p
            simp [split2_of_countOcc2_one '>' '=' (pyStrip line) pre post hs h1, h1]
        · have h2 : 2 ≤ countOcc2 '>' '=' (pyStrip line) := by
            have := countOcc2_pos_of_hasPair '>' '=' (pyStrip line) hp2
            omega
          have h3 := split2_length_ge_three '>' '=' (pyStrip line) h2
          rw [if_neg h1, if_pos h2]
          cases hsp : split2 '>' '=' (pyStrip line) with
          | nil => rfl
          | cons x xs =>
            cases xs with
            | nil => rfl
            | cons y ys =>
              cases ys with
              | nil => exfalso; rw [hsp] at h3; simp at h3
              | cons z zs => rfl
      | false =>
        have hz2 : countOcc2 '>' '=' (pyStrip line) = 0 :=
          countOcc2_eq_zero_of_not_hasPair '>' '=' (pyStrip line) hp2
        simp only [hp2, Bool.false_eq_true, if_false]
        rw [if_neg (show ¬(countOcc2 '>' '=' (pyStrip line) = 1) by omega),
          if_neg (show ¬(2 ≤ countOcc2 '>' '=' (pyStrip line)) by omega)]

/-! ## C5 — parser error tolerance -/

theorem reqLoop_error_stops : ∀ (ls : List Str) (deps : List (Str × Str)) (rest : List Str),
    (reqLoop deps ls).2.isSome = true → reqLoop deps (ls ++ rest) = reqLoop deps ls := by
  intro ls
  induction ls with
  | nil => intro deps rest h; simp [reqLoop] at h
  | cons line ls ih =>
    intro deps rest h
    simp only [reqLoop, List.cons_append] at h ⊢
    cases hst : reqStep deps line with
    | ok d => exact ih d rest (by rw [hst] at h; exact h)
    | error e => rfl

/-- C5 (counterexample).  On the file `x==1` / `a==b==c` the second
line raises mid-loop; the `except` arm fires, yet the parser returns
`{"x": "1"}` — the entries accumulated before the failure — not the
empty mapping the claim promises for every caught failure. -/
theorem parser_tolerance_counterexample :
    (reqLoop [] [S "x==1", S "a==b==c"]).2.isSome = true ∧
      parse_python_requirements (some [S "x==1", S "a==b==c"]) = [(S "x", S "1")] := by decide

/-- C5 (amended).  Both parsers catch every I/O or parse failure and
log it instead of propagating (they are total functions of the modelled
failure outcomes).  `parse_npm_dependencies` returns the empty mapping
on any failure.  `parse_python_requirements` returns the empty mapping
when the file cannot be opened, but a failure raised mid-loop aborts
the loop — the remaining lines are ignored — and the function returns
the entries accumulated before the failure, which need not be empty. -/
theorem parser_tolerance_amended (f : Option Json) (e : Str) (deps : List (Str × Str))
    (ls rest : List Str) :
    (parse_npm_body f = Except.error e → parse_npm_dependencies f = []) ∧
    parse_python_requirements none = [] ∧
    ((reqLoop deps ls).2.isSome = true → reqLoop deps (ls ++ rest) = reqLoop deps ls) ∧
    parse_python_requirements (some ls) = (reqLoop [] ls).1 :=
  ⟨fun h => by simp [parse_npm_dependencies, h],
   rfl,
   reqLoop_error_stops ls deps rest,
   rfl⟩

/-- Witness for C5's amended theorem: an unreadable `package.json`
yields the empty mapping, and a mid-file `ValueError` in a requirements
file makes the loop ignore every following line. -/
theorem parser_tolerance_amended_witness :
    parse_npm_dependencies none = [] ∧
      reqLoop [] ([S "a==b==c"] ++ [S "z==9"]) = reqLoop [] [S "a==b==c"] :=
  ⟨(parser_tolerance_amended none (S "IOError or JSONDecodeError") [] [] []).1 rfl,
   (parser_tolerance_amended none (S "IOError or JSONDecodeError") []
      [S "a==b==c"] [S "z==9"]).2.2.1 (by decide)⟩

/-! ## C6 — report printer row -/

/-- C6.  For string-valued inputs, the printed row renders the name
truncated to at most 39 characters, the two versions with `-`
substituted for the `N/A` sentinel, and a status column computed by
plain string equality of the *raw* (untruncated, unsubstituted)
versions: `Up to date` exactly when they are equal, `Update Available`
otherwise. -/
theorem print_package_info_spec (name current latest v : Str) :
    print_package_info (Json.str name) (Json.str current) (Json.str latest) =
      Except.ok (ljust 40 (name.take 39) ++ [' '] ++ ljust 20 (dispVer current) ++
        [' '] ++ ljust 20 (dispVer latest) ++ [' '] ++
        ljust 20 (pkgStatus current latest)) ∧
    (pkgStatus current latest = S "Up to date" ↔ current = latest) ∧
    (pkgStatus current latest = S "Update Available" ↔ current ≠ latest) ∧
    dispVer (S "N/A") = S "-" ∧
    (v ≠ S "N/A" → dispVer v = v) ∧
    (name.take 39).length ≤ 39 := by
  refine ⟨?_, ?_, ?_, rfl, ?_, ?_⟩
  · simp only [print_package_info, pySlice39, formatVal, jsonBeq_str, pkgStatus, dispVer]
    by_cases hcl : current = latest <;>
      by_cases hcn : current = S "N/A" <;>
        by_cases hln : latest = S "N/A" <;>
          simp [hcl, hcn, hln, formatVal, Except.bind]
  · unfold pkgStatus
    by_cases h : current = latest
    · simp [h]
    · simp only [if_neg h, h, iff_false]
      decide
  · unfold pkgStatus
    by_cases h : current = latest
    · subst h
      rw [if_pos rfl]
      constructor
      · intro hx
        exact absurd hx (by decide)
      · intro hx
        exact absurd rfl hx
    · rw [if_neg h]
      simp [h]
  · intro hv
    simp [dispVer, hv]
  · rw [List.length_take]
    omega

/-- Witness for C6 at name `lodash`, versions `1.0.0` / `2.0.0`. -/
theorem print_package_info_spec_witness :
    print_package_info (Json.str (S "lodash")) (Json.str (S "1.0.0"))
        (Json.str (S "2.0.0")) =
      Except.ok (ljust 40 ((S "lodash").take 39) ++ [' '] ++ ljust 20 (dispVer (S "1.0.0")) ++
        [' '] ++ ljust 20 (dispVer (S "2.0.0")) ++ [' '] ++
        ljust 20 (pkgStatus (S "1.0.0") (S "2.0.0"))) ∧
      pkgStatus (S "1.0.0") (S "2.0.0") = S "Update Available" ∧
      dispVer (S "1.0.0") = S "1.0.0" :=
  ⟨(print_package_info_spec (S "lodash") (S "1.0.0") (S "2.0.0") (S "1.0.0")).1,
   (print_package_info_spec (S "lodash") (S "1.0.0") (S "2.0.0") (S "1.0.0")).2.2.1.mpr
     (by decide),
   (print_package_info_spec (S "lodash") (S "1.0.0") (S "2.0.0") (S "1.0.0")).2.2.2.2.1
     (by decide)⟩

/-! ## C7 — per-manager failure isolation -/

theorem check_eq_join (w : World) : ∀ mgrs : List (Str × Str),
    check_outdated_packages w mgrs = (mgrs.map (manager_events w)).flatten := by
  intro mgrs
  induction mgrs with
  | nil => simp [check_outdated_packages]
  | cons p rest ih => simp [check_outdated_packages, ih]

/-- C7.  The manager loop is a per-manager concatenation: each manager
in the map contributes its own block of output independently of every
other manager's outcome, so every manager's check is performed (its
section header is printed) no matter which other managers fail; and
whenever the body of one manager's check raises, the exception is
caught and logged in a message naming that manager, after which the
loop continues. -/
theorem check_outdated_isolation (w : World) (mgrs : List (Str × Str)) (p : Str × Str)
    (hp : p ∈ mgrs) :
    check_outdated_packages w mgrs = (mgrs.map (manager_events w)).flatten ∧
    mgrHeader p.1 ∈ check_outdated_packages w mgrs ∧
    (∀ e, (mgrResult w p).2 = some e →
      checkErrMsg p.1 e ∈ check_outdated_packages w mgrs) := by
  refine ⟨check_eq_join w mgrs, ?_, ?_⟩
  · rw [check_eq_join w mgrs]
    exact List.mem_flatten.mpr
      ⟨manager_events w p, List.mem_map_of_mem _ hp, by simp [manager_events]⟩
  · intro e he
    rw [check_eq_join w mgrs]
    refine List.mem_flatten.mpr ⟨manager_events w p, List.mem_map_of_mem _ hp, ?_⟩
    simp [manager_events, he]

/-- Witness for C7: with npm's subprocess raising
`FileNotFoundError` and pip detected alongside, the output still
contains pip's section header (pip's check is performed), and the
caught npm failure is logged in a message naming npm. -/
theorem check_outdated_isolation_witness :
    checkErrMsg (S "npm") (S "FileNotFoundError")
        ∈ check_outdated_packages
          ⟨ProcRes.raises (S "FileNotFoundError"), none,
           ProcRes.ok ⟨true, Except.error (S "unused")⟩,
           ProcRes.ok ⟨true, Except.error (S "unused")⟩⟩
          [(S "npm", S "/t/package.json"), (S "pip", S "/t/requirements.txt")] ∧
      mgrHeader (S "pip")
        ∈ check_outdated_packages
          ⟨ProcRes.raises (S "FileNotFoundError"), none,
           ProcRes.ok ⟨true, Except.error (S "unused")⟩,
           ProcRes.ok ⟨true, Except.error (S "unused")⟩⟩
          [(S "npm", S "/t/package.json"), (S "pip", S "/t/requirements.txt")] :=
  ⟨(check_outdated_isolation
      ⟨ProcRes.raises (S "FileNotFoundError"), none,
       ProcRes.ok ⟨true, Except.error (S "unused")⟩,
       ProcRes.ok ⟨true, Except.error (S "unused")⟩⟩
      [(S "npm", S "/t/package.json"), (S "pip", S "/t/requirements.txt")]
      (S "npm", S "/t/package.json") (by decide)).2.2 (S "FileNotFoundError") rfl,
   (check_outdated_isolation
      ⟨ProcRes.raises (S "FileNotFoundError"), none,
       ProcRes.ok ⟨true, Except.error (S "unused")⟩,
       ProcRes.ok ⟨true, Except.error (S "unused")⟩⟩
      [(S "npm", S "/t/package.json"), (S "pip", S "/t/requirements.txt")]
      (S "pip", S "/t/requirements.txt") (by decide)).2.1⟩

/-! ## C8 — the empty-detection exit path -/

/-- C8.  A wrong argument count exits 1 with the usage text.  When the
URL parses, git is present and the clone succeeds, an empty manager map
makes the orchestrator print exactly the analyzing banner and the
"no recognized dependency files" notice and exit 0 — no manager list,
no section headers, no outdated check output.  Conversely an exit code
of 0 implies every fatal gate was passed: URL parse, git presence and
clone success all succeeded, so all other early exits carry a non-zero
code. -/
theorem main_empty_detection_exit (w w2 : MainWorld) (url : Str) :
    (w2.argv.length ≠ 1 → mainEntry w2 = (1, usageLines)) ∧
    (w.argv = [url] → (validate_github_url (urlparse_path url)).isSome = true →
      w.gitAvailable = true → w.cloneFails = none →
      detect_package_managers w.tempDir w.fs = [] →
      mainEntry w = (0, [analyzingLine url, noDepsLine])) ∧
    (w.argv = [url] → (mainEntry w).1 = 0 →
      (validate_github_url (urlparse_path url)).isSome = true ∧
        w.gitAvailable = true ∧ w.cloneFails = none) := by
  obtain ⟨argv, git, clone, td, fs, sw⟩ := w
  obtain ⟨argv2, git2, clone2, td2, fs2, sw2⟩ := w2
  refine ⟨?_, ?_, ?_⟩
  · intro h
    match argv2 with
    | [] => rfl
    | [a] => simp at h
    | a :: b :: rest => rfl
  · intro hargv hv hg hc hd
    subst hargv hg hc
    cases hvv : validate_github_url (urlparse_path url) with
    | none => rw [hvv] at hv; simp at hv
    | some pr =>
      simp [mainEntry, hvv, hd]
  · intro hargv h0
    subst hargv
    cases hvv : validate_github_url (urlparse_path url) with
    | none =>
      simp [mainEntry, hvv] at h0
    | some pr =>
      cases git with
      | false => simp [mainEntry, hvv] at h0
      | true =>
        cases hcc : clone with
        | some e => simp [mainEntry, hvv, hcc] at h0
        | none => exact ⟨rfl, rfl, rfl⟩

/-- Witness for C8: a repository with no recognized marker files prints
the notice and exits 0; a run with no arguments exits 1 with the usage
text. -/
theorem main_empty_detection_exit_witness :
    mainEntry ⟨[S "https://github.com/a/b"], true, none, S "/t", ⟨[], []⟩,
        ⟨ProcRes.raises (S "x"), none, ProcRes.raises (S "x"), ProcRes.raises (S "x")⟩⟩ =
      (0, [analyzingLine (S "https://github.com/a/b"), noDepsLine]) ∧
    mainEntry ⟨[], true, none, S "/t", ⟨[], []⟩,
        ⟨ProcRes.raises (S "x"), none, ProcRes.raises (S "x"), ProcRes.raises (S "x")⟩⟩ =
      (1, usageLines) ∧
    (validate_github_url (urlparse_path (S "https://github.com/a/b"))).isSome = true :=
  ⟨(main_empty_detection_exit
      ⟨[S "https://github.com/a/b"], true, none, S "/t", ⟨[], []⟩,
       ⟨ProcRes.raises (S "x"), none, ProcRes.raises (S "x"), ProcRes.raises (S "x")⟩⟩
      ⟨[], true, none, S "/t", ⟨[], []⟩,
       ⟨ProcRes.raises (S "x"), none, ProcRes.raises (S "x"), ProcRes.raises (S "x")⟩⟩
      (S "https://github.com/a/b")).2.1 rfl (by decide) rfl rfl (by decide),
   (main_empty_detection_exit
      ⟨[S "https://github.com/a/b"], true, none, S "/t", ⟨[], []⟩,
       ⟨ProcRes.raises (S "x"), none, ProcRes.raises (S "x"), ProcRes.raises (S "x")⟩⟩
      ⟨[], true, none, S "/t", ⟨[], []⟩,
       ⟨ProcRes.raises (S "x"), none, ProcRes.raises (S "x"), ProcRes.raises (S "x")⟩⟩
      (S "https://github.com/a/b")).1 (by decide),
   (main_empty_detection_exit
      ⟨[S "https://github.com/a/b"], true, none, S "/t", ⟨[], []⟩,
       ⟨ProcRes.raises (S "x"), none, ProcRes.raises (S "x"), ProcRes.raises (S "x")⟩⟩
      ⟨[], true, none, S "/t", ⟨[], []⟩,
       ⟨ProcRes.raises (S "x"), none, ProcRes.raises (S "x"), ProcRes.raises (S "x")⟩⟩
      (S "https://github.com/a/b")).2.2 rfl rfl |>.1⟩

/-! ## C9 — clone failure -/

set_option maxRecDepth 10000 in
/-- C9 (counterexample).  When the clone fails with captured stderr
`fatal: repository not found`, the program does exit non-zero, but no
printed line contains that captured error text: the message printed is
`str(CalledProcessError)`, which names the command and the exit status
only.  The claim that "the error text captured from the clone
subprocess is surfaced to the user in the printed error message" is
false. -/
theorem clone_failure_counterexample :
    (mainEntry ⟨[S "https://github.com/octo/proj"], true,
        some ⟨128, S "fatal: repository not found"⟩, S "/tmp/x", ⟨[], []⟩,
        ⟨ProcRes.raises (S "x"), none, ProcRes.raises (S "x"), ProcRes.raises (S "x")⟩⟩).1 = 1 ∧
      (mainEntry ⟨[S "https://github.com/octo/proj"], true,
          some ⟨128, S "fatal: repository not found"⟩, S "/tmp/x", ⟨[], []⟩,
          ⟨ProcRes.raises (S "x"), none, ProcRes.raises (S "x"), ProcRes.raises (S "x")⟩⟩).2.all
        (fun line => !(decide (S "fatal: repository not found" <:+: line))) = true := by decide

/-- C9 (amended).  A non-zero exit of the clone invocation is fatal:
the program exits 1 having printed only the analyzing banner and the
clone error message, so no manager detection and no outdated checks are
performed.  The printed message surfaces `str(CalledProcessError)` —
the clone command line and its exit status; the captured stderr text is
stored on the exception but is not part of the printed message. -/
theorem clone_failure_amended (w : MainWorld) (url : Str) (e : CPE)
    (hargv : w.argv = [url])
    (hv : (validate_github_url (urlparse_path url)).isSome = true)
    (hg : w.gitAvailable = true)
    (hc : w.cloneFails = some e) :
    mainEntry w = (1, [analyzingLine url,
      S "Error cloning repository: " ++ cpeStr (cloneCmd url w.tempDir) e.returncode]) := by
  obtain ⟨argv, git, clone, td, fs, sw⟩ := w
  simp only at hargv hv hg hc
  subst hargv hg hc
  cases hvv : validate_github_url (urlparse_path url) with
  | none => rw [hvv] at hv; simp at hv
  | some pr => simp [mainEntry, hvv, cloneErrMsg]

/-- Witness for C9's amended theorem at a concrete failing clone. -/
theorem clone_failure_amended_witness :
    mainEntry ⟨[S "https://github.com/octo/proj"], true,
        some ⟨128, S "fatal: repository not found"⟩, S "/tmp/x", ⟨[], []⟩,
        ⟨ProcRes.raises (S "x"), none, ProcRes.raises (S "x"), ProcRes.raises (S "x")⟩⟩ =
      (1, [analyzingLine (S "https://github.com/octo/proj"),
        S "Error cloning repository: " ++
          cpeStr (cloneCmd (S "https://github.com/octo/proj") (S "/tmp/x")) 128]) :=
  clone_failure_amended
    ⟨[S "https://github.com/octo/proj"], true,
     some ⟨128, S "fatal: repository not found"⟩, S "/tmp/x", ⟨[], []⟩,
     ⟨ProcRes.raises (S "x"), none, ProcRes.raises (S "x"), ProcRes.raises (S "x")⟩⟩
    (S "https://github.com/octo/proj") ⟨128, S "fatal: repository not found"⟩
    rfl (by decide) rfl rfl
